import Mathlib

/-!
Shallow embedding of the ENB mini-app Express/Firestore backend
(`src/unnamed/part_001`, duplicated with small variations in
`src/backend/server.js`).

Modelling conventions:
* Firestore documents become Lean structures; the three collections
  (`accounts`, `invitationUsage`, `transactions`) become lists inside `Store`.
  Updating the document with a given id is modelled by mapping the update over
  every list entry whose `walletAddress` matches; Firestore document ids are
  unique, which is expressed where needed by the `KeysNodup` hypothesis.
* JavaScript numbers are modelled as exact rationals (`Rat`); the arithmetic
  performed by the claims (integers, halves) is exact in IEEE doubles as well.
* JavaScript timestamps are modelled as integer milliseconds (`Int`).
  `new Date(t.getFullYear(), t.getMonth(), t.getDate())` truncates a timestamp
  to local midnight, which (for a fixed UTC offset, no DST jump) is floor
  division by the number of milliseconds per day.
* A missing (`undefined`) request string field and the empty string are both
  falsy in JavaScript and are rejected by the same guards, so request string
  fields are plain `String` with absence collapsed to `""`.  The numeric
  `amount` field is `Option Rat` because the code checks `amount === undefined`
  (an amount of `0` is accepted).
* Reads of numeric account fields always go through `x || 0` in the source,
  which is the identity on every present numeric value (`0 || 0 = 0`), so such
  fields are plain `Nat`/`Rat`.  `maxInvitationUses || 5` is different: the
  field may be absent and JavaScript additionally sends a stored `0` to the
  default, so it is kept as `Option Nat` read through `natOr`.
* Firestore `orderBy(field, 'desc')` is modelled by sorting with respect to the
  descending relation on that field (`List.insertionSort`).
* Firestore's `QuerySnapshot.forEach` invokes its callback with the document
  snapshot only (it is not `Array.prototype.forEach`), so handlers written as
  `snapshot.forEach((doc, index) => ...)` read `index` as `undefined` and any
  `index + 1` they compute is `NaN`.  A JavaScript number that may be `NaN` is
  modelled by `JsNum`.
* A plain object literal inherits the members of `Object.prototype`, so a
  dynamic lookup such as `membershipMultiplier[level]` can produce a truthy
  inherited function for member names like `"toString"`; `multiplierLookup`
  models the full lookup including that chain.
-/

namespace ENB

/-- Milliseconds in one civil day: `24 * 60 * 60 * 1000`. -/
def msPerDay : Int := 86400000

/-- Truncation of a timestamp to the start of its calendar day; models
`new Date(t.getFullYear(), t.getMonth(), t.getDate()).getTime()`. -/
def dayStart (t : Int) : Int := t.fdiv msPerDay * msPerDay

/-- Index of the calendar day containing a timestamp. -/
def dayIndex (t : Int) : Int := t.fdiv msPerDay

/-- JavaScript truthiness of a request string field (`""` is falsy, any other
string truthy). -/
def strPresent (s : String) : Bool := !(s == "")

/-- JavaScript `s || d` on strings: the default replaces the empty string. -/
def strOr (s d : String) : String := if s == "" then d else s

/-- JavaScript `x || d` on an optional numeric field: both an absent field and
a stored `0` are falsy and yield the default. -/
def natOr (x : Option Nat) (d : Nat) : Nat :=
  match x with
  | none => d
  | some v => if v == 0 then d else v

/-- A JavaScript number observed after arithmetic: either an actual numeric
value or `NaN` (as produced by `undefined + 1` or by multiplying with a
non-numeric value). -/
inductive JsNum where
  | num (q : Rat)
  | nan
  deriving DecidableEq

/-- An `accounts` collection document.  Field inventory is the union of what
`create-account`, `create-default-user`, `activate-account` and `daily-claim`
write. -/
structure Account where
  walletAddress : String
  transactionHash : Option String
  membershipLevel : String
  invitationCode : Option String
  maxInvitationUses : Option Nat
  currentInvitationUses : Nat
  createdAt : Option Int
  lastDailyClaimTime : Option Int
  consecutiveDays : Nat
  enbBalance : Rat
  totalEarned : Rat
  isActivated : Bool
  activatedAt : Option Int
  activatedBy : Option String
  inviterWallet : Option String
  lastTransactionHash : Option String
  deriving DecidableEq

/-- An `invitationUsage` collection document. -/
structure UsageRecord where
  invitationCode : String
  usedBy : String
  usedAt : Int
  inviterWallet : String
  deriving DecidableEq

/-- A `transactions` collection document. -/
structure TxRecord where
  walletAddress : String
  amount : Rat
  type : String
  description : String
  balanceBefore : Rat
  balanceAfter : Rat
  timestamp : Int
  deriving DecidableEq

/-- The Firestore state seen by the API handlers. -/
structure Store where
  accounts : List Account
  invitationUsage : List UsageRecord
  transactions : List TxRecord
  deriving DecidableEq

/-- Document ids of the `accounts` collection are unique; in this code base the
document id is always the wallet address. -/
def KeysNodup (s : Store) : Prop :=
  (s.accounts.map (fun a => a.walletAddress)).Nodup

/-- Models `db.collection('accounts').doc(w).get()`. -/
def findAccount (s : Store) (w : String) : Option Account :=
  s.accounts.find? (fun a => a.walletAddress == w)

/-- Models `db.collection('accounts').where('invitationCode','==',code).limit(1)`. -/
def findByCode (s : Store) (code : String) : Option Account :=
  s.accounts.find? (fun a => a.invitationCode == some code)

/-- Models `db.collection('invitationUsage').where('invitationCode','==',code)
.where('usedBy','==',w).limit(1)`. -/
def findUsage (s : Store) (code w : String) : Option UsageRecord :=
  s.invitationUsage.find? (fun u => u.invitationCode == code && u.usedBy == w)

/-- Models an update of the account document with id `w` (the document id is
unique in the real store, so mapping over all matching entries is faithful). -/
def updateAccount (s : Store) (w : String) (f : Account → Account) : Store :=
  { s with accounts := s.accounts.map (fun a => if a.walletAddress == w then f a else a) }

/-- Numeric branch of the membership bonus lookup of `/api/daily-claim`
(part_001 lines 537-543): `{'Based': 1, 'Super Based': 1.5, 'Legendary': 2}`
read with a `|| 1` default.  This is exact for the three own keys of the table
and for every other level string that is not a member name inherited from
`Object.prototype`; the full JavaScript lookup including the inherited members
is `multiplierLookup`, which agrees with this function away from those names
(`multiplierLookup_num`). -/
def membershipMultiplier (level : String) : Rat :=
  if level == "Based" then 1
  else if level == "Super Based" then (3 : Rat) / 2
  else if level == "Legendary" then 2
  else 1

/-- Models `Math.floor(enbReward * (membershipMultiplier[level] || 1))` for
level strings on which the lookup is numeric (see `membershipMultiplier`). -/
def finalRewardOf (base : Nat) (level : String) : Int :=
  Int.floor ((base : Rat) * membershipMultiplier level)

/-- The member names every plain object literal inherits from
`Object.prototype` in Node: reading any of them yields a truthy function (or,
for `__proto__`, an object), never `undefined`. -/
def objectPrototypeMembers : List String :=
  ["constructor", "hasOwnProperty", "isPrototypeOf", "propertyIsEnumerable",
   "toLocaleString", "toString", "valueOf", "__proto__", "__defineGetter__",
   "__defineSetter__", "__lookupGetter__", "__lookupSetter__"]

/-- Result of the JavaScript expression `membershipMultiplier[level] || 1` on
the object literal of part_001 lines 537-543, prototype chain included: an own
key yields its numeric value, a member name inherited from `Object.prototype`
yields a truthy non-numeric member (so `|| 1` keeps it), and any other key
yields `undefined`, which `|| 1` replaces by 1. -/
inductive JsLookup where
  | num (q : Rat)
  | inherited
  deriving DecidableEq

def multiplierLookup (level : String) : JsLookup :=
  if level == "Based" then JsLookup.num 1
  else if level == "Super Based" then JsLookup.num ((3 : Rat) / 2)
  else if level == "Legendary" then JsLookup.num 2
  else if level ∈ objectPrototypeMembers then JsLookup.inherited
  else JsLookup.num 1

/-- Models `Math.floor(enbReward * (membershipMultiplier[level] || 1))` with
the full lookup: multiplying by an inherited non-numeric member coerces it to
`NaN`, and `Math.floor(NaN)` is `NaN`. -/
def finalRewardJs (base : Nat) (level : String) : JsNum :=
  match multiplierLookup level with
  | JsLookup.num q => JsNum.num (Int.floor ((base : Rat) * q))
  | JsLookup.inherited => JsNum.nan

/-- Streak and base-reward computation of `/api/daily-claim` (part_001 lines
519-534): starts from `(1, 10)` and upgrades to the streak bonus only when the
previous claim day is exactly yesterday. -/
def claimStreak (lastClaim : Option Int) (prevDays : Nat) (now : Int) : Nat × Nat :=
  match lastClaim with
  | none => (1, 10)
  | some last =>
      if dayStart last = dayStart now - msPerDay then
        (prevDays + 1, 10 * min (prevDays + 1) 5)
      else
        (1, 10)

/-- The same-calendar-day test of `/api/daily-claim` (part_001 lines 510-517):
`lastClaimDate.getTime() === today.getTime()`. -/
def claimedToday (lastClaim : Option Int) (now : Int) : Bool :=
  match lastClaim with
  | none => false
  | some last => dayStart last == dayStart now

/-- Outcome of `POST /api/daily-claim`. -/
inductive DailyClaimResult where
  | err (status : Nat) (msg : String)
  | ok (reward : Int) (consecutiveDays : Nat) (newBalance : Rat)
  deriving DecidableEq

/-- The account update performed by a successful daily claim (part_001 lines
546-552); the written values are absolutes computed from the document read at
the start of the handler (`acct`). -/
def dailyClaimWrite (acct : Account) (now : Int) (tx : String) : Account → Account :=
  fun a =>
    { a with
      lastDailyClaimTime := some now
      consecutiveDays := (claimStreak acct.lastDailyClaimTime acct.consecutiveDays now).1
      enbBalance := acct.enbBalance +
        ((finalRewardOf (claimStreak acct.lastDailyClaimTime acct.consecutiveDays now).2
            acct.membershipLevel : Int) : Rat)
      totalEarned := acct.totalEarned +
        ((finalRewardOf (claimStreak acct.lastDailyClaimTime acct.consecutiveDays now).2
            acct.membershipLevel : Int) : Rat)
      lastTransactionHash := some tx }

/-- `POST /api/daily-claim` (part_001 lines 485-565). -/
def dailyClaim (s : Store) (now : Int) (walletAddress transactionHash : String) :
    DailyClaimResult × Store :=
  if !(strPresent walletAddress) || !(strPresent transactionHash) then
    (DailyClaimResult.err 400 "Missing wallet address or transaction hash", s)
  else
    match findAccount s walletAddress with
    | none => (DailyClaimResult.err 404 "Account not found", s)
    | some acct =>
      if !acct.isActivated then
        (DailyClaimResult.err 400 "Account is not activated", s)
      else if claimedToday acct.lastDailyClaimTime now then
        (DailyClaimResult.err 400 "Already claimed today", s)
      else
        let sr := claimStreak acct.lastDailyClaimTime acct.consecutiveDays now
        let fr := finalRewardOf sr.2 acct.membershipLevel
        (DailyClaimResult.ok fr sr.1 (acct.enbBalance + (fr : Rat)),
         updateAccount s walletAddress (dailyClaimWrite acct now transactionHash))

/-- Payload of `GET /api/daily-claim-status/:walletAddress`. -/
structure ClaimStatus where
  canClaim : Bool
  lastClaimToday : Bool
  consecutiveDays : Nat
  lastDailyClaimTime : Option Int
  deriving DecidableEq

/-- `GET /api/daily-claim-status/:walletAddress` (part_001 lines 568-606).
Note the handler never consults `isActivated`. -/
def dailyClaimStatus (s : Store) (now : Int) (w : String) :
    Except (Nat × String) ClaimStatus :=
  match findAccount s w with
  | none => Except.error (404, "Account not found")
  | some acct =>
      Except.ok
        { canClaim := !(claimedToday acct.lastDailyClaimTime now)
          lastClaimToday := claimedToday acct.lastDailyClaimTime now
          consecutiveDays := acct.consecutiveDays
          lastDailyClaimTime := acct.lastDailyClaimTime }

/-- Outcome of `POST /api/activate-account`. -/
inductive ActivateResult where
  | err (status : Nat) (msg : String)
  | ok (membershipLevel : String) (inviterWallet : String) (remainingUses : Int)
  deriving DecidableEq

/-- The batched update of the activating account (part_001 lines 405-411). -/
def activateWrite (now : Int) (code inviterWallet : String) : Account → Account :=
  fun a =>
    { a with
      isActivated := true
      activatedAt := some now
      activatedBy := some code
      inviterWallet := some inviterWallet }

/-- The batched update of the inviter account (part_001 lines 413-417); the
written count is the absolute `currentUses + 1` computed from the read. -/
def inviterWrite (newUses : Nat) : Account → Account :=
  fun a => { a with currentInvitationUses := newUses }

/-- The three writes committed together by `batch.commit()` on a successful
activation (part_001 lines 402-423). -/
def activateCommit (s : Store) (now : Int) (w code : String) (inviter : Account) : Store :=
  let s1 := updateAccount s w (activateWrite now code inviter.walletAddress)
  let s2 := updateAccount s1 inviter.walletAddress
      (inviterWrite (inviter.currentInvitationUses + 1))
  { s2 with invitationUsage := s2.invitationUsage ++
      [{ invitationCode := code, usedBy := w, usedAt := now,
         inviterWallet := inviter.walletAddress }] }

/-- `POST /api/activate-account` (part_001 lines 336-436). -/
def activateAccount (s : Store) (now : Int) (walletAddress invitationCode : String) :
    ActivateResult × Store :=
  if !(strPresent walletAddress) || !(strPresent invitationCode) then
    (ActivateResult.err 400 "Missing required fields", s)
  else
    match findAccount s walletAddress with
    | none => (ActivateResult.err 404 "Account not found", s)
    | some acct =>
      if acct.isActivated then
        (ActivateResult.err 400 "Account is already activated", s)
      else
        match findByCode s invitationCode with
        | none => (ActivateResult.err 400 "Invalid invitation code", s)
        | some inviter =>
          if !inviter.isActivated then
            (ActivateResult.err 400 "Invitation code is from an inactive account", s)
          else if natOr inviter.maxInvitationUses 5 ≤ inviter.currentInvitationUses then
            (ActivateResult.err 400 "Invitation code usage limit exceeded", s)
          else if (findUsage s invitationCode walletAddress).isSome then
            (ActivateResult.err 400 "You have already used this invitation code", s)
          else
            (ActivateResult.ok (strOr acct.membershipLevel "Based") inviter.walletAddress
              ((natOr inviter.maxInvitationUses 5 : Int) -
                (inviter.currentInvitationUses + 1)),
             activateCommit s now walletAddress invitationCode inviter)

/-- Outcome of `POST /api/update-balance`. -/
inductive UpdateBalanceResult where
  | err (status : Nat) (msg : String)
  | ok (previousBalance newBalance : Rat)
  deriving DecidableEq

/-- The batched balance write plus transaction append of `/api/update-balance`
(part_001 lines 643-664). -/
def balanceCommit (s : Store) (now : Int) (w : String) (amt : Rat) (ty desc : String)
    (oldBal newBal : Rat) : Store :=
  let s1 := updateAccount s w (fun a => { a with enbBalance := newBal })
  { s1 with transactions := s1.transactions ++
      [{ walletAddress := w, amount := amt, type := ty, description := desc,
         balanceBefore := oldBal, balanceAfter := newBal, timestamp := now }] }

/-- `POST /api/update-balance` (part_001 lines 609-677).  The `amount` field is
checked against `undefined` only, hence `Option Rat`. -/
def updateBalance (s : Store) (now : Int) (walletAddress : String)
    (amount : Option Rat) (type description : String) : UpdateBalanceResult × Store :=
  if !(strPresent walletAddress) || amount.isNone || !(strPresent type) then
    (UpdateBalanceResult.err 400 "Missing required fields", s)
  else if !(type == "credit" || type == "debit") then
    (UpdateBalanceResult.err 400 "Invalid transaction type", s)
  else
    match findAccount s walletAddress with
    | none => (UpdateBalanceResult.err 404 "Account not found", s)
    | some acct =>
      let amt := amount.getD 0
      if type == "credit" then
        (UpdateBalanceResult.ok acct.enbBalance (acct.enbBalance + amt),
         balanceCommit s now walletAddress amt type (strOr description "")
           acct.enbBalance (acct.enbBalance + amt))
      else if acct.enbBalance < amt then
        (UpdateBalanceResult.err 400 "Insufficient balance", s)
      else
        (UpdateBalanceResult.ok acct.enbBalance (acct.enbBalance - amt),
         balanceCommit s now walletAddress amt type (strOr description "")
           acct.enbBalance (acct.enbBalance - amt))

/-- One row of a leaderboard response; `value` is the field the query orders
by.  The `rank` field is a JavaScript number because the handlers compute it
as `index + 1` from a `forEach` callback parameter that is never supplied. -/
structure LeaderEntry where
  rank : JsNum
  walletAddress : String
  value : Rat
  membershipLevel : String
  deriving DecidableEq

/-- Shared shape of the three `GET /api/leaderboard/...` handlers (part_001
lines 710-803): filter activated accounts, order descending by the chosen
field and truncate to the caller limit.  Each handler then pushes
`rank: index + 1` from `snapshot.forEach((doc, index) => ...)`, but Firestore's
`QuerySnapshot.forEach` calls its callback with the document snapshot only, so
`index` is `undefined` and the written rank is `undefined + 1 = NaN` on every
row. -/
def leaderboardBy (key : Account → Rat) (s : Store) (limit : Nat) : List LeaderEntry :=
  let sorted := List.insertionSort (fun a b => key b ≤ key a)
      (s.accounts.filter (fun a => a.isActivated))
  (sorted.take limit).map (fun a =>
    { rank := JsNum.nan
      walletAddress := a.walletAddress
      value := key a
      membershipLevel := strOr a.membershipLevel "Based" })

/-- `GET /api/leaderboard/balance` (part_001 lines 710-739). -/
def leaderboardBalance (s : Store) (limit : Nat) : List LeaderEntry :=
  leaderboardBy (fun a => a.enbBalance) s limit

/-- `GET /api/leaderboard/earnings` (part_001 lines 742-771). -/
def leaderboardEarnings (s : Store) (limit : Nat) : List LeaderEntry :=
  leaderboardBy (fun a => a.totalEarned) s limit

/-- `GET /api/leaderboard/streaks` (part_001 lines 774-803). -/
def leaderboardStreaks (s : Store) (limit : Nat) : List LeaderEntry :=
  leaderboardBy (fun a => (a.consecutiveDays : Rat)) s limit

/-- Payload of `GET /api/user-rankings/:walletAddress`. -/
structure Rankings where
  balanceRank : Nat
  earningsRank : Nat
  streakRank : Nat
  deriving DecidableEq

/-- `GET /api/user-rankings/:walletAddress` (part_001 lines 806-865): each rank
is the size of the activated-and-strictly-greater query plus one. -/
def userRankings (s : Store) (w : String) : Except (Nat × String) Rankings :=
  match findAccount s w with
  | none => Except.error (404, "Account not found")
  | some acct =>
    if !acct.isActivated then
      Except.error (400, "Account is not activated")
    else
      Except.ok
        { balanceRank :=
            (s.accounts.countP (fun a => a.isActivated &&
              decide (acct.enbBalance < a.enbBalance))) + 1
          earningsRank :=
            (s.accounts.countP (fun a => a.isActivated &&
              decide (acct.totalEarned < a.totalEarned))) + 1
          streakRank :=
            (s.accounts.countP (fun a => a.isActivated &&
              decide (acct.consecutiveDays < a.consecutiveDays))) + 1 }

/-- A freshly created account as written by `POST /api/create-account`
(part_001 lines 268-279), used as the base of the concrete test fixtures. -/
def baseAccount : Account :=
  { walletAddress := "0xA"
    transactionHash := some "0xtx"
    membershipLevel := "Based"
    invitationCode := some "CODE1"
    maxInvitationUses := none
    currentInvitationUses := 0
    createdAt := some 0
    lastDailyClaimTime := none
    consecutiveDays := 0
    enbBalance := 0
    totalEarned := 0
    isActivated := false
    activatedAt := none
    activatedBy := none
    inviterWallet := none
    lastTransactionHash := none }

/-- Invariant from the data model: an account never records more invitation
uses than its (defaulted) maximum allows. -/
def usesOK (a : Account) : Prop :=
  a.currentInvitationUses ≤ natOr a.maxInvitationUses 5

instance (a : Account) : Decidable (usesOK a) := by
  unfold usesOK
  infer_instance

instance (s : Store) : Decidable (KeysNodup s) := by
  unfold KeysNodup
  infer_instance

/-- A sequence of activation attempts executed one after the other; each
request is `(now, walletAddress, invitationCode)`. -/
def runActivations (s : Store) (rs : List (Int × String × String)) : Store :=
  rs.foldl (fun st r => (activateAccount st r.1 r.2.1 r.2.2).2) s

theorem dayStart_inj {a b : Int} : dayStart a = dayStart b ↔ dayIndex a = dayIndex b := by
  unfold dayStart dayIndex
  constructor
  · intro h
    exact mul_right_cancel₀ (by decide : msPerDay ≠ 0) h
  · intro h
    rw [h]

theorem dayStart_yesterday {a b : Int} :
    dayStart a = dayStart b - msPerDay ↔ dayIndex a = dayIndex b - 1 := by
  unfold dayStart dayIndex
  constructor
  · intro h
    have h2 : a.fdiv msPerDay * msPerDay = (b.fdiv msPerDay - 1) * msPerDay := by
      rw [h]; ring
    exact mul_right_cancel₀ (by decide : msPerDay ≠ 0) h2
  · intro h
    rw [h]; ring

theorem claimedToday_some {t now : Int} :
    claimedToday (some t) now = true ↔ dayIndex t = dayIndex now := by
  simp [claimedToday, dayStart_inj]

theorem claimedToday_some_false {t now : Int} :
    claimedToday (some t) now = false ↔ dayIndex t ≠ dayIndex now := by
  simp [claimedToday, dayStart_inj]

theorem claimStreak_some (t : Int) (prev : Nat) (now : Int) :
    claimStreak (some t) prev now =
      if dayStart t = dayStart now - msPerDay then (prev + 1, 10 * min (prev + 1) 5)
      else (1, 10) := rfl

theorem claimStreak_yesterday {t : Int} {prev : Nat} {now : Int}
    (h : dayIndex t = dayIndex now - 1) :
    claimStreak (some t) prev now = (prev + 1, 10 * min (prev + 1) 5) := by
  rw [claimStreak_some, if_pos (dayStart_yesterday.mpr h)]

theorem claimStreak_gap {t : Int} {prev : Nat} {now : Int}
    (h : dayIndex t ≠ dayIndex now - 1) :
    claimStreak (some t) prev now = (1, 10) := by
  rw [claimStreak_some, if_neg (fun hc => h (dayStart_yesterday.mp hc))]

theorem find_map_update (l : List Account) (w : String) (f : Account → Account)
    (hf : ∀ a, (f a).walletAddress = a.walletAddress) :
    (l.map (fun a => if a.walletAddress == w then f a else a)).find?
        (fun a => a.walletAddress == w)
      = Option.map f (l.find? (fun a => a.walletAddress == w)) := by
  induction l with
  | nil => rfl
  | cons a t ih =>
    cases hb : (a.walletAddress == w) with
    | true =>
      have hb2 : ((f a).walletAddress == w) = true := by rw [hf]; exact hb
      rw [List.map_cons, if_pos hb]
      simp only [List.find?_cons, hb, hb2, Option.map_some']
    | false =>
      have hb3 : ¬ ((a.walletAddress == w) = true) := by rw [hb]; exact Bool.false_ne_true
      rw [List.map_cons, if_neg hb3]
      simp only [List.find?_cons, hb, ih]

theorem find_map_update_ne (l : List Account) (w w2 : String) (hne : w ≠ w2)
    (f : Account → Account)
    (hf : ∀ a, (f a).walletAddress = a.walletAddress) :
    (l.map (fun a => if a.walletAddress == w then f a else a)).find?
        (fun a => a.walletAddress == w2)
      = l.find? (fun a => a.walletAddress == w2) := by
  induction l with
  | nil => rfl
  | cons a t ih =>
    cases hb : (a.walletAddress == w) with
    | true =>
      have haw : a.walletAddress = w := by
        have := hb
        simpa using this
      have h2 : ¬ (((f a).walletAddress == w2) = true) := by
        rw [hf, haw]
        simpa using hne
      have h4 : ((f a).walletAddress == w2) = false := by
        rw [Bool.eq_false_iff]
        exact h2
      have h5 : (a.walletAddress == w2) = false := by
        rw [Bool.eq_false_iff, haw]
        simpa using hne
      rw [List.map_cons, if_pos hb]
      simp only [List.find?_cons, h4, h5, ih]
    | false =>
      have hb3 : ¬ ((a.walletAddress == w) = true) := by rw [hb]; exact Bool.false_ne_true
      cases hb4 : (a.walletAddress == w2) with
      | true =>
        rw [List.map_cons, if_neg hb3]
        simp only [List.find?_cons, hb4]
      | false =>
        rw [List.map_cons, if_neg hb3]
        simp only [List.find?_cons, hb4, ih]

theorem findAccount_update_self (s : Store) (w : String) (f : Account → Account)
    (hf : ∀ a, (f a).walletAddress = a.walletAddress) :
    findAccount (updateAccount s w f) w = Option.map f (findAccount s w) :=
  find_map_update s.accounts w f hf

theorem findAccount_update_ne (s : Store) {w w2 : String} (hne : w ≠ w2)
    (f : Account → Account)
    (hf : ∀ a, (f a).walletAddress = a.walletAddress) :
    findAccount (updateAccount s w f) w2 = findAccount s w2 :=
  find_map_update_ne s.accounts w w2 hne f hf

theorem find_of_mem_nodupkeys {l : List Account}
    (hk : (l.map (fun a => a.walletAddress)).Nodup) {a : Account} (ha : a ∈ l) :
    l.find? (fun x => x.walletAddress == a.walletAddress) = some a := by
  induction l with
  | nil => cases ha
  | cons b t ih =>
    rcases List.mem_cons.mp ha with h | h
    · subst h; simp [List.find?_cons]
    · have hk2 : ((b :: t).map (fun a => a.walletAddress)).Nodup := hk
      rw [List.map_cons, List.nodup_cons] at hk2
      have hb : b.walletAddress ≠ a.walletAddress := by
        intro he
        exact hk2.1 (he ▸ List.mem_map_of_mem (fun x => x.walletAddress) h)
      simp [List.find?_cons, hb, ih hk2.2 h]

theorem findAccount_of_mem {s : Store} (hk : KeysNodup s) {a : Account}
    (ha : a ∈ s.accounts) : findAccount s a.walletAddress = some a :=
  find_of_mem_nodupkeys hk ha

theorem eq_of_same_wallet {s : Store} (hk : KeysNodup s) {a b : Account}
    (ha : a ∈ s.accounts) (hb : b ∈ s.accounts)
    (hw : a.walletAddress = b.walletAddress) : a = b := by
  have h1 := findAccount_of_mem hk ha
  have h2 := findAccount_of_mem hk hb
  rw [hw, h2] at h1
  exact (Option.some.inj h1).symm

theorem dailyClaim_already (s : Store) (now : Int) (w tx : String) (acct : Account)
    (hw : strPresent w = true) (ht : strPresent tx = true)
    (hf : findAccount s w = some acct) (ha : acct.isActivated = true)
    (hc : claimedToday acct.lastDailyClaimTime now = true) :
    dailyClaim s now w tx = (DailyClaimResult.err 400 "Already claimed today", s) := by
  unfold dailyClaim
  simp [hw, ht, hf, ha, hc]

theorem dailyClaim_not_activated (s : Store) (now : Int) (w tx : String) (acct : Account)
    (hw : strPresent w = true) (ht : strPresent tx = true)
    (hf : findAccount s w = some acct) (ha : acct.isActivated = false) :
    dailyClaim s now w tx = (DailyClaimResult.err 400 "Account is not activated", s) := by
  unfold dailyClaim
  simp [hw, ht, hf, ha]

theorem dailyClaim_success (s : Store) (now : Int) (w tx : String) (acct : Account)
    (hw : strPresent w = true) (ht : strPresent tx = true)
    (hf : findAccount s w = some acct) (ha : acct.isActivated = true)
    (hn : claimedToday acct.lastDailyClaimTime now = false) :
    dailyClaim s now w tx =
      (DailyClaimResult.ok
        (finalRewardOf (claimStreak acct.lastDailyClaimTime acct.consecutiveDays now).2
          acct.membershipLevel)
        (claimStreak acct.lastDailyClaimTime acct.consecutiveDays now).1
        (acct.enbBalance +
          ((finalRewardOf (claimStreak acct.lastDailyClaimTime acct.consecutiveDays now).2
              acct.membershipLevel : Int) : Rat)),
       updateAccount s w (dailyClaimWrite acct now tx)) := by
  unfold dailyClaim
  simp [hw, ht, hf, ha, hn]

theorem dailyClaimWrite_wallet (acct : Account) (now : Int) (tx : String) (a : Account) :
    (dailyClaimWrite acct now tx a).walletAddress = a.walletAddress := rfl

theorem activateWrite_wallet (now : Int) (c iw : String) (a : Account) :
    (activateWrite now c iw a).walletAddress = a.walletAddress := rfl

theorem inviterWrite_wallet (n : Nat) (a : Account) :
    (inviterWrite n a).walletAddress = a.walletAddress := rfl

theorem activate_missing (s : Store) (now : Int) (w c : String)
    (h : (!(strPresent w) || !(strPresent c)) = true) :
    activateAccount s now w c = (ActivateResult.err 400 "Missing required fields", s) := by
  unfold activateAccount
  rw [if_pos h]

theorem activate_not_found (s : Store) (now : Int) (w c : String)
    (hw : strPresent w = true) (hc : strPresent c = true)
    (hf : findAccount s w = none) :
    activateAccount s now w c = (ActivateResult.err 404 "Account not found", s) := by
  unfold activateAccount
  simp [hw, hc, hf]

theorem activate_already (s : Store) (now : Int) (w c : String) (acct : Account)
    (hw : strPresent w = true) (hc : strPresent c = true)
    (hf : findAccount s w = some acct) (ha : acct.isActivated = true) :
    activateAccount s now w c = (ActivateResult.err 400 "Account is already activated", s) := by
  unfold activateAccount
  simp [hw, hc, hf, ha]

theorem activate_invalid_code (s : Store) (now : Int) (w c : String) (acct : Account)
    (hw : strPresent w = true) (hc : strPresent c = true)
    (hf : findAccount s w = some acct) (ha : acct.isActivated = false)
    (hbc : findByCode s c = none) :
    activateAccount s now w c = (ActivateResult.err 400 "Invalid invitation code", s) := by
  unfold activateAccount
  simp [hw, hc, hf, ha, hbc]

theorem activate_inactive_inviter (s : Store) (now : Int) (w c : String)
    (acct inviter : Account)
    (hw : strPresent w = true) (hc : strPresent c = true)
    (hf : findAccount s w = some acct) (ha : acct.isActivated = false)
    (hbc : findByCode s c = some inviter) (hia : inviter.isActivated = false) :
    activateAccount s now w c =
      (ActivateResult.err 400 "Invitation code is from an inactive account", s) := by
  unfold activateAccount
  simp [hw, hc, hf, ha, hbc, hia]

theorem activate_limit (s : Store) (now : Int) (w c : String) (acct inviter : Account)
    (hw : strPresent w = true) (hc : strPresent c = true)
    (hf : findAccount s w = some acct) (ha : acct.isActivated = false)
    (hbc : findByCode s c = some inviter) (hia : inviter.isActivated = true)
    (hle : natOr inviter.maxInvitationUses 5 ≤ inviter.currentInvitationUses) :
    activateAccount s now w c =
      (ActivateResult.err 400 "Invitation code usage limit exceeded", s) := by
  unfold activateAccount
  simp [hw, hc, hf, ha, hbc, hia, hle]

theorem activate_duplicate (s : Store) (now : Int) (w c : String) (acct inviter : Account)
    (u : UsageRecord)
    (hw : strPresent w = true) (hc : strPresent c = true)
    (hf : findAccount s w = some acct) (ha : acct.isActivated = false)
    (hbc : findByCode s c = some inviter) (hia : inviter.isActivated = true)
    (hlt : inviter.currentInvitationUses < natOr inviter.maxInvitationUses 5)
    (hu : findUsage s c w = some u) :
    activateAccount s now w c =
      (ActivateResult.err 400 "You have already used this invitation code", s) := by
  unfold activateAccount
  have h1 : ¬ (natOr inviter.maxInvitationUses 5 ≤ inviter.currentInvitationUses) :=
    Nat.not_le.mpr hlt
  simp [hw, hc, hf, ha, hbc, hia, h1, hu]

theorem activate_success_eq (s : Store) (now : Int) (w c : String) (acct inviter : Account)
    (hw : strPresent w = true) (hc : strPresent c = true)
    (hf : findAccount s w = some acct) (ha : acct.isActivated = false)
    (hbc : findByCode s c = some inviter) (hia : inviter.isActivated = true)
    (hlt : inviter.currentInvitationUses < natOr inviter.maxInvitationUses 5)
    (hu : findUsage s c w = none) :
    activateAccount s now w c =
      (ActivateResult.ok (strOr acct.membershipLevel "Based") inviter.walletAddress
        ((natOr inviter.maxInvitationUses 5 : Int) - (inviter.currentInvitationUses + 1)),
       activateCommit s now w c inviter) := by
  unfold activateAccount
  have h1 : ¬ (natOr inviter.maxInvitationUses 5 ≤ inviter.currentInvitationUses) :=
    Nat.not_le.mpr hlt
  simp [hw, hc, hf, ha, hbc, hia, h1, hu]

theorem activate_state_cases (s : Store) (now : Int) (w c : String) :
    (activateAccount s now w c).2 = s ∨
    ∃ inviter, inviter ∈ s.accounts ∧ inviter.isActivated = true ∧
      inviter.currentInvitationUses < natOr inviter.maxInvitationUses 5 ∧
      (activateAccount s now w c).2 = activateCommit s now w c inviter := by
  by_cases hg : (!(strPresent w) || !(strPresent c)) = true
  · rw [activate_missing s now w c hg]
    exact Or.inl rfl
  · have hw : strPresent w = true := by
      rcases Bool.or_eq_false_iff.mp (Bool.not_eq_true _ |>.mp hg) with ⟨h1, h2⟩
      simpa using h1
    have hc : strPresent c = true := by
      rcases Bool.or_eq_false_iff.mp (Bool.not_eq_true _ |>.mp hg) with ⟨h1, h2⟩
      simpa using h2
    cases hf : findAccount s w with
    | none =>
      rw [activate_not_found s now w c hw hc hf]
      exact Or.inl rfl
    | some acct =>
      cases ha : acct.isActivated with
      | true =>
        rw [activate_already s now w c acct hw hc hf ha]
        exact Or.inl rfl
      | false =>
        cases hbc : findByCode s c with
        | none =>
          rw [activate_invalid_code s now w c acct hw hc hf ha hbc]
          exact Or.inl rfl
        | some inviter =>
          cases hia : inviter.isActivated with
          | false =>
            rw [activate_inactive_inviter s now w c acct inviter hw hc hf ha hbc hia]
            exact Or.inl rfl
          | true =>
            by_cases hle : natOr inviter.maxInvitationUses 5 ≤ inviter.currentInvitationUses
            · rw [activate_limit s now w c acct inviter hw hc hf ha hbc hia hle]
              exact Or.inl rfl
            · have hlt : inviter.currentInvitationUses < natOr inviter.maxInvitationUses 5 :=
                Nat.not_le.mp hle
              cases hu : findUsage s c w with
              | some u =>
                rw [activate_duplicate s now w c acct inviter u hw hc hf ha hbc hia hlt hu]
                exact Or.inl rfl
              | none =>
                right
                refine ⟨inviter, List.mem_of_find?_eq_some hbc, hia, hlt, ?_⟩
                rw [activate_success_eq s now w c acct inviter hw hc hf ha hbc hia hlt hu]

theorem map_wallet_update (l : List Account) (w : String) (f : Account → Account)
    (hf : ∀ a, (f a).walletAddress = a.walletAddress) :
    (l.map (fun a => if a.walletAddress == w then f a else a)).map
        (fun a => a.walletAddress)
      = l.map (fun a => a.walletAddress) := by
  induction l with
  | nil => rfl
  | cons a t ih =>
    by_cases h : (a.walletAddress == w) = true
    · simp only [List.map_cons, if_pos h, hf, ih]
    · simp only [List.map_cons, if_neg h, ih]

theorem keys_commit (s : Store) (now : Int) (w c : String) (inviter : Account) :
    (activateCommit s now w c inviter).accounts.map (fun a => a.walletAddress)
      = s.accounts.map (fun a => a.walletAddress) := by
  unfold activateCommit
  simp only [updateAccount]
  rw [map_wallet_update _ inviter.walletAddress
      (inviterWrite (inviter.currentInvitationUses + 1)) (fun a => rfl),
    map_wallet_update _ w (activateWrite now c inviter.walletAddress) (fun a => rfl)]

theorem upd_wallet (w : String) (f : Account → Account)
    (hf : ∀ x, (f x).walletAddress = x.walletAddress) (a : Account) :
    (if a.walletAddress == w then f a else a).walletAddress = a.walletAddress := by
  by_cases h : (a.walletAddress == w) = true
  · rw [if_pos h]; exact hf a
  · rw [if_neg h]

theorem usesOK_commit {s : Store} (hk : KeysNodup s) {inviter : Account}
    (hm : inviter ∈ s.accounts)
    (hlt : inviter.currentInvitationUses < natOr inviter.maxInvitationUses 5)
    (hinv : ∀ a ∈ s.accounts, usesOK a)
    (now : Int) (w c : String) :
    ∀ a ∈ (activateCommit s now w c inviter).accounts, usesOK a := by
  intro a hmem
  unfold activateCommit at hmem
  simp only [updateAccount, List.mem_map] at hmem
  obtain ⟨x, ⟨b, hb, rfl⟩, rfl⟩ := hmem
  by_cases h2 : ((if b.walletAddress == w then activateWrite now c inviter.walletAddress b
      else b).walletAddress == inviter.walletAddress) = true
  · rw [if_pos h2]
    have hbw : b.walletAddress = inviter.walletAddress := by
      have h3 := h2
      rw [upd_wallet w (activateWrite now c inviter.walletAddress) (fun x => rfl) b] at h3
      simpa using h3
    have hbe : b = inviter := eq_of_same_wallet hk hb hm hbw
    have hmax : (if b.walletAddress == w then activateWrite now c inviter.walletAddress b
        else b).maxInvitationUses = b.maxInvitationUses := by
      by_cases h1 : (b.walletAddress == w) = true
      · rw [if_pos h1]; rfl
      · rw [if_neg h1]
    show inviter.currentInvitationUses + 1 ≤
      natOr (if b.walletAddress == w then activateWrite now c inviter.walletAddress b
        else b).maxInvitationUses 5
    rw [hmax, hbe]
    exact Nat.succ_le_of_lt hlt
  · rw [if_neg h2]
    by_cases h1 : (b.walletAddress == w) = true
    · rw [if_pos h1]
      exact hinv b hb
    · rw [if_neg h1]
      exact hinv b hb

theorem commit_uses_dichotomy {s : Store} (hk : KeysNodup s) {inviter : Account}
    (hm : inviter ∈ s.accounts)
    (hlt : inviter.currentInvitationUses < natOr inviter.maxInvitationUses 5)
    (now : Int) (w c : String) :
    ∀ b ∈ (activateCommit s now w c inviter).accounts, ∃ a ∈ s.accounts,
      a.walletAddress = b.walletAddress ∧
      (b.currentInvitationUses = a.currentInvitationUses ∨
        (a.currentInvitationUses < natOr a.maxInvitationUses 5 ∧
          b.currentInvitationUses = a.currentInvitationUses + 1)) := by
  intro b hmem
  unfold activateCommit at hmem
  simp only [updateAccount, List.mem_map] at hmem
  obtain ⟨x, ⟨a, ha, rfl⟩, rfl⟩ := hmem
  refine ⟨a, ha, ?_, ?_⟩
  · rw [upd_wallet inviter.walletAddress
        (inviterWrite (inviter.currentInvitationUses + 1)) (fun x => rfl),
      upd_wallet w (activateWrite now c inviter.walletAddress) (fun x => rfl)]
  · by_cases h2 : ((if a.walletAddress == w
        then activateWrite now c inviter.walletAddress a else a).walletAddress ==
          inviter.walletAddress) = true
    · rw [if_pos h2]
      have haw : a.walletAddress = inviter.walletAddress := by
        have h3 := h2
        rw [upd_wallet w (activateWrite now c inviter.walletAddress) (fun x => rfl) a] at h3
        simpa using h3
      have hae : a = inviter := eq_of_same_wallet hk ha hm haw
      right
      constructor
      · rw [hae]; exact hlt
      · show inviter.currentInvitationUses + 1 = a.currentInvitationUses + 1
        rw [hae]
    · rw [if_neg h2]
      left
      by_cases h1 : (a.walletAddress == w) = true
      · rw [if_pos h1]; rfl
      · rw [if_neg h1]

theorem activate_preserves (s : Store) (now : Int) (w c : String)
    (hk : KeysNodup s) (hinv : ∀ a ∈ s.accounts, usesOK a) :
    KeysNodup (activateAccount s now w c).2 ∧
    ∀ a ∈ (activateAccount s now w c).2.accounts, usesOK a := by
  rcases activate_state_cases s now w c with h | ⟨inviter, hm, hia, hlt, h⟩
  · rw [h]; exact ⟨hk, hinv⟩
  · rw [h]
    refine ⟨?_, usesOK_commit hk hm hlt hinv now w c⟩
    show ((activateCommit s now w c inviter).accounts.map (fun a => a.walletAddress)).Nodup
    rw [keys_commit]
    exact hk

theorem activate_uses_dichotomy (s : Store) (now : Int) (w c : String)
    (hk : KeysNodup s) :
    ∀ b ∈ (activateAccount s now w c).2.accounts, ∃ a ∈ s.accounts,
      a.walletAddress = b.walletAddress ∧
      (b.currentInvitationUses = a.currentInvitationUses ∨
        (a.currentInvitationUses < natOr a.maxInvitationUses 5 ∧
          b.currentInvitationUses = a.currentInvitationUses + 1)) := by
  intro b hb
  rcases activate_state_cases s now w c with h | ⟨inviter, hm, hia, hlt, h⟩
  · rw [h] at hb; exact ⟨b, hb, rfl, Or.inl rfl⟩
  · rw [h] at hb; exact commit_uses_dichotomy hk hm hlt now w c b hb

theorem runActivations_inv (rs : List (Int × String × String)) :
    ∀ s : Store, KeysNodup s → (∀ a ∈ s.accounts, usesOK a) →
      KeysNodup (runActivations s rs) ∧
        ∀ a ∈ (runActivations s rs).accounts, usesOK a := by
  induction rs with
  | nil => exact fun s hk hinv => ⟨hk, hinv⟩
  | cons r rest ih =>
    intro s hk hinv
    have hstep := activate_preserves s r.1 r.2.1 r.2.2 hk hinv
    exact ih _ hstep.1 hstep.2

theorem dailyClaim_post_account (s : Store) (now : Int) (w tx : String) (acct : Account)
    (hw : strPresent w = true) (ht : strPresent tx = true)
    (hf : findAccount s w = some acct) (ha : acct.isActivated = true)
    (hn : claimedToday acct.lastDailyClaimTime now = false) :
    findAccount (dailyClaim s now w tx).2 w = some (dailyClaimWrite acct now tx acct) := by
  rw [dailyClaim_success s now w tx acct hw ht hf ha hn]
  show findAccount (updateAccount s w (dailyClaimWrite acct now tx)) w = _
  rw [findAccount_update_self s w (dailyClaimWrite acct now tx)
      (dailyClaimWrite_wallet acct now tx), hf, Option.map_some']

theorem multiplierLookup_num (level : String) (h : level ∉ objectPrototypeMembers) :
    multiplierLookup level = JsLookup.num (membershipMultiplier level) := by
  unfold multiplierLookup membershipMultiplier
  by_cases h1 : (level == "Based") = true
  · simp [h1]
  · by_cases h2 : (level == "Super Based") = true
    · simp [h1, h2]
    · by_cases h3 : (level == "Legendary") = true
      · simp [h1, h2, h3]
      · simp [h1, h2, h3, h]

theorem finalRewardJs_num (base : Nat) (level : String)
    (h : level ∉ objectPrototypeMembers) :
    finalRewardJs base level = JsNum.num (finalRewardOf base level) := by
  unfold finalRewardJs
  rw [multiplierLookup_num level h]
  rfl

theorem sorted_desc (key : Account → Rat) (l : List Account) :
    (List.insertionSort (fun a b => key b ≤ key a) l).Pairwise
      (fun a b => key b ≤ key a) := by
  haveI : IsTotal Account (fun a b => key b ≤ key a) := ⟨fun a b => le_total (key b) (key a)⟩
  haveI : IsTrans Account (fun a b => key b ≤ key a) :=
    ⟨fun a b c hab hbc => le_trans hbc hab⟩
  exact List.sorted_insertionSort _ l

theorem leaderboard_pairwise (key : Account → Rat) (s : Store) (limit : Nat) :
    (leaderboardBy key s limit).Pairwise (fun x y => y.value ≤ x.value) := by
  unfold leaderboardBy
  rw [List.pairwise_map]
  have hs := sorted_desc key (s.accounts.filter (fun a => a.isActivated))
  exact List.Pairwise.sublist (List.take_sublist limit _) hs

theorem leaderboard_mem (key : Account → Rat) (s : Store) (limit : Nat) :
    ∀ e ∈ leaderboardBy key s limit, ∃ a ∈ s.accounts, a.isActivated = true ∧
      e.walletAddress = a.walletAddress ∧ e.value = key a := by
  intro e he
  unfold leaderboardBy at he
  simp only [List.mem_map] at he
  obtain ⟨a, ha, rfl⟩ := he
  have h3 := List.take_subset _ _ ha
  have h4 : a ∈ s.accounts.filter (fun a => a.isActivated) :=
    (List.perm_insertionSort _ _).mem_iff.mp h3
  rcases List.mem_filter.mp h4 with ⟨h5, h6⟩
  exact ⟨a, h5, by simpa using h6, rfl, rfl⟩

theorem leaderboard_length (key : Account → Rat) (s : Store) (limit : Nat) :
    (leaderboardBy key s limit).length ≤ limit := by
  unfold leaderboardBy
  rw [List.length_map, List.length_take]
  exact min_le_left _ _

theorem leaderboard_rank_nan (key : Account → Rat) (s : Store) (limit : Nat) :
    ∀ e ∈ leaderboardBy key s limit, e.rank = JsNum.nan := by
  intro e he
  unfold leaderboardBy at he
  simp only [List.mem_map] at he
  obtain ⟨a, ha, rfl⟩ := he
  rfl

theorem leaderboard_head (key : Account → Rat) (s : Store) (limit : Nat)
    (hpos : 0 < limit) :
    ∀ a ∈ s.accounts, a.isActivated = true →
      ∃ e, (leaderboardBy key s limit).head? = some e ∧ key a ≤ e.value := by
  intro a ha hact
  have hmf : a ∈ s.accounts.filter (fun x => x.isActivated) :=
    List.mem_filter.mpr ⟨ha, by simpa using hact⟩
  have hms : a ∈ List.insertionSort (fun a b => key b ≤ key a)
      (s.accounts.filter (fun a => a.isActivated)) := by
    refine (List.perm_insertionSort _ _).mem_iff.mpr ?_
    simpa using hmf
  have hne := List.ne_nil_of_mem hms
  obtain ⟨b, L, hbl⟩ := List.exists_cons_of_ne_nil hne
  have hab : key a ≤ key b := by
    rw [hbl] at hms
    rcases List.mem_cons.mp hms with h | h
    · rw [h]
    · have hs := sorted_desc key (s.accounts.filter (fun a => a.isActivated))
      rw [hbl] at hs
      exact List.rel_of_pairwise_cons hs h
  obtain ⟨m, rfl⟩ : ∃ m, limit = m + 1 :=
    ⟨limit - 1, (Nat.succ_pred_eq_of_pos hpos).symm⟩
  unfold leaderboardBy
  rw [hbl]
  exact ⟨{ rank := JsNum.nan, walletAddress := b.walletAddress, value := key b,
           membershipLevel := strOr b.membershipLevel "Based" }, rfl, hab⟩

theorem userRankings_ok (s : Store) (w : String) (acct : Account)
    (hf : findAccount s w = some acct) (ha : acct.isActivated = true) :
    userRankings s w = Except.ok
      { balanceRank := (s.accounts.filter (fun a => a.isActivated &&
          decide (acct.enbBalance < a.enbBalance))).length + 1
        earningsRank := (s.accounts.filter (fun a => a.isActivated &&
          decide (acct.totalEarned < a.totalEarned))).length + 1
        streakRank := (s.accounts.filter (fun a => a.isActivated &&
          decide (acct.consecutiveDays < a.consecutiveDays))).length + 1 } := by
  unfold userRankings
  simp [hf, ha, List.countP_eq_length_filter]

theorem findAccount_usage_append (s : Store) (us : List UsageRecord) (w : String) :
    findAccount { s with invitationUsage := us } w = findAccount s w := rfl

theorem findAccount_tx_append (s : Store) (ts : List TxRecord) (w : String) :
    findAccount { s with transactions := ts } w = findAccount s w := rfl

/-- Concrete fixture: a non-activated account that nevertheless carries a
`lastDailyClaimTime` on day 0. -/
def acct1 : Account := { baseAccount with lastDailyClaimTime := some 1000 }

def cs1 : Store := { accounts := [acct1], invitationUsage := [], transactions := [] }

/-- Concrete fixture: an activated account with no claim yet. -/
def acctA : Account := { baseAccount with isActivated := true }

def csA : Store := { accounts := [acctA], invitationUsage := [], transactions := [] }

/-- Concrete fixture: an activated account that claimed on day 0. -/
def acctB : Account := { baseAccount with isActivated := true, lastDailyClaimTime := some 1000 }

def csB : Store := { accounts := [acctB], invitationUsage := [], transactions := [] }

/-- Concrete fixture: an activated account with a day-0 claim and a running
streak of 1. -/
def acctC : Account :=
  { baseAccount with
    isActivated := true
    lastDailyClaimTime := some 0
    consecutiveDays := 1 }

def csC : Store := { accounts := [acctC], invitationUsage := [], transactions := [] }

/-- Concrete fixture: an activated `Super Based` account with no claim yet. -/
def acctD : Account :=
  { baseAccount with
    membershipLevel := "Super Based"
    isActivated := true
    enbBalance := 100
    totalEarned := 40 }

def csD : Store := { accounts := [acctD], invitationUsage := [], transactions := [] }

def csE : Store := { accounts := [], invitationUsage := [], transactions := [] }

/-- Concrete fixture: an activated inviter whose invitation code is exhausted. -/
def inviterL : Account :=
  { baseAccount with
    walletAddress := "0xI"
    invitationCode := some "CODEL"
    isActivated := true
    maxInvitationUses := some 2
    currentInvitationUses := 2 }

/-- Concrete fixture: a not-yet-activated account without a code of its own. -/
def newN : Account := { baseAccount with walletAddress := "0xN", invitationCode := none }

def csL : Store := { accounts := [inviterL, newN], invitationUsage := [], transactions := [] }

/-- Concrete fixture: an activated inviter with free invitation uses. -/
def inviterS : Account :=
  { baseAccount with
    walletAddress := "0xI"
    invitationCode := some "CODE5"
    isActivated := true
    currentInvitationUses := 0 }

def csS : Store := { accounts := [inviterS, newN], invitationUsage := [], transactions := [] }

def usageS : UsageRecord :=
  { invitationCode := "CODE5", usedBy := "0xN", usedAt := 10, inviterWallet := "0xI" }

def csU : Store := { accounts := [inviterS, newN], invitationUsage := [usageS], transactions := [] }

/-- Claim C1 (amended): for every ACTIVATED account whose `lastDailyClaimTime`
falls on the same calendar day as the current time, a daily-claim request
returns the error "Already claimed today" with HTTP 400 and the store — hence
every account field — is left unchanged; and a second claim on the same
calendar day as a successful first claim is always rejected with that error.
(The original claim quantified over every account; a non-activated account
with a same-day `lastDailyClaimTime` is instead rejected with "Account is not
activated", see the counterexample.) -/
theorem claim_C1 (s : Store) (now : Int) (w tx : String) (acct : Account)
    (hw : strPresent w = true) (ht : strPresent tx = true)
    (hf : findAccount s w = some acct) (ha : acct.isActivated = true) :
    (∀ t, acct.lastDailyClaimTime = some t → dayIndex t = dayIndex now →
      dailyClaim s now w tx = (DailyClaimResult.err 400 "Already claimed today", s)) ∧
    (claimedToday acct.lastDailyClaimTime now = false →
      ∀ (now2 : Int) (tx2 : String), strPresent tx2 = true →
        dayIndex now2 = dayIndex now →
        dailyClaim (dailyClaim s now w tx).2 now2 w tx2 =
          (DailyClaimResult.err 400 "Already claimed today", (dailyClaim s now w tx).2)) := by
  constructor
  · intro t hl hday
    apply dailyClaim_already s now w tx acct hw ht hf ha
    rw [hl]
    exact claimedToday_some.mpr hday
  · intro hn now2 tx2 ht2 hday2
    have hpost := dailyClaim_post_account s now w tx acct hw ht hf ha hn
    apply dailyClaim_already (dailyClaim s now w tx).2 now2 w tx2
      (dailyClaimWrite acct now tx acct) hw ht2 hpost ha
    show claimedToday (some now) now2 = true
    exact claimedToday_some.mpr hday2.symm

/-- Claim C1 counterexample: the store can hold a non-activated account whose
`lastDailyClaimTime` is on the current calendar day; the daily claim is then
rejected with "Account is not activated" (the activation check runs first),
not with "Already claimed today" as the claim states for every account. -/
theorem claim_C1_cex :
    claimedToday acct1.lastDailyClaimTime 2000 = true ∧
    dailyClaim cs1 2000 "0xA" "0xh" =
      (DailyClaimResult.err 400 "Account is not activated", cs1) ∧
    (dailyClaim cs1 2000 "0xA" "0xh").1 ≠
      DailyClaimResult.err 400 "Already claimed today" := by
  refine ⟨by decide, by decide, by decide⟩

theorem claim_C1_witness :
    dailyClaim csB 2000 "0xA" "tx1" =
      (DailyClaimResult.err 400 "Already claimed today", csB) ∧
    dailyClaim (dailyClaim csA 0 "0xA" "tx1").2 5 "0xA" "tx2" =
      (DailyClaimResult.err 400 "Already claimed today", (dailyClaim csA 0 "0xA" "tx1").2) := by
  constructor
  · exact (claim_C1 csB 2000 "0xA" "tx1" acctB (by decide) (by decide) (by decide)
      (by decide)).1 1000 rfl (by decide)
  · exact (claim_C1 csA 0 "0xA" "tx1" acctA (by decide) (by decide) (by decide)
      (by decide)).2 (by decide) 5 "tx2" (by decide) (by decide)

/-- Claim C2: for every activated account, a successful daily claim whose
previous claim fell exactly on the previous calendar day sets the new streak
to the prior `consecutiveDays` plus 1 with base reward `10 * min(newStreak, 5)`;
otherwise (no previous claim, or a gap of two or more calendar days) the new
streak is 1 and the base reward 10. -/
theorem claim_C2 (s : Store) (now : Int) (w tx : String) (acct : Account)
    (hw : strPresent w = true) (ht : strPresent tx = true)
    (hf : findAccount s w = some acct) (ha : acct.isActivated = true) :
    (∀ t, acct.lastDailyClaimTime = some t → dayIndex t = dayIndex now - 1 →
      claimStreak acct.lastDailyClaimTime acct.consecutiveDays now =
        (acct.consecutiveDays + 1, 10 * min (acct.consecutiveDays + 1) 5) ∧
      (∃ r nb, (dailyClaim s now w tx).1 =
        DailyClaimResult.ok r (acct.consecutiveDays + 1) nb) ∧
      (∃ acct2, findAccount (dailyClaim s now w tx).2 w = some acct2 ∧
        acct2.consecutiveDays = acct.consecutiveDays + 1)) ∧
    ((acct.lastDailyClaimTime = none ∨ ∃ t, acct.lastDailyClaimTime = some t ∧
        dayIndex t ≠ dayIndex now ∧ dayIndex t ≠ dayIndex now - 1) →
      claimStreak acct.lastDailyClaimTime acct.consecutiveDays now = (1, 10) ∧
      (∃ r nb, (dailyClaim s now w tx).1 = DailyClaimResult.ok r 1 nb) ∧
      (∃ acct2, findAccount (dailyClaim s now w tx).2 w = some acct2 ∧
        acct2.consecutiveDays = 1)) := by
  constructor
  · intro t hl hday
    have hne : dayIndex t ≠ dayIndex now := by omega
    have hn : claimedToday acct.lastDailyClaimTime now = false := by
      rw [hl]
      exact claimedToday_some_false.mpr hne
    have hcs : claimStreak acct.lastDailyClaimTime acct.consecutiveDays now =
        (acct.consecutiveDays + 1, 10 * min (acct.consecutiveDays + 1) 5) := by
      rw [hl]
      exact claimStreak_yesterday hday
    have hsucc := dailyClaim_success s now w tx acct hw ht hf ha hn
    rw [hcs] at hsucc
    refine ⟨hcs, ⟨_, _, by rw [hsucc]⟩, dailyClaimWrite acct now tx acct,
      dailyClaim_post_account s now w tx acct hw ht hf ha hn, ?_⟩
    show (claimStreak acct.lastDailyClaimTime acct.consecutiveDays now).1 =
      acct.consecutiveDays + 1
    rw [hcs]
  · intro hcase
    have hn : claimedToday acct.lastDailyClaimTime now = false := by
      rcases hcase with h | ⟨t, hl, hne, hgap⟩
      · rw [h]; rfl
      · rw [hl]; exact claimedToday_some_false.mpr hne
    have hcs : claimStreak acct.lastDailyClaimTime acct.consecutiveDays now = (1, 10) := by
      rcases hcase with h | ⟨t, hl, hne, hgap⟩
      · rw [h]; rfl
      · rw [hl]; exact claimStreak_gap hgap
    have hsucc := dailyClaim_success s now w tx acct hw ht hf ha hn
    rw [hcs] at hsucc
    refine ⟨hcs, ⟨_, _, by rw [hsucc]⟩, dailyClaimWrite acct now tx acct,
      dailyClaim_post_account s now w tx acct hw ht hf ha hn, ?_⟩
    show (claimStreak acct.lastDailyClaimTime acct.consecutiveDays now).1 = 1
    rw [hcs]

theorem claim_C2_witness :
    (claimStreak acctC.lastDailyClaimTime acctC.consecutiveDays 86400005 =
      (acctC.consecutiveDays + 1, 10 * min (acctC.consecutiveDays + 1) 5) ∧
    (∃ r nb, (dailyClaim csC 86400005 "0xA" "tx").1 =
      DailyClaimResult.ok r (acctC.consecutiveDays + 1) nb) ∧
    (∃ acct2, findAccount (dailyClaim csC 86400005 "0xA" "tx").2 "0xA" = some acct2 ∧
      acct2.consecutiveDays = acctC.consecutiveDays + 1)) ∧
    (claimStreak acctC.lastDailyClaimTime acctC.consecutiveDays 172800007 = (1, 10) ∧
    (∃ r nb, (dailyClaim csC 172800007 "0xA" "tx").1 = DailyClaimResult.ok r 1 nb) ∧
    (∃ acct2, findAccount (dailyClaim csC 172800007 "0xA" "tx").2 "0xA" = some acct2 ∧
      acct2.consecutiveDays = 1)) := by
  constructor
  · exact (claim_C2 csC 86400005 "0xA" "tx" acctC (by decide) (by decide) (by decide)
      (by decide)).1 0 rfl (by decide)
  · exact (claim_C2 csC 172800007 "0xA" "tx" acctC (by decide) (by decide) (by decide)
      (by decide)).2 (Or.inr ⟨0, rfl, by decide, by decide⟩)

/-- Claim C3: for every successful daily claim the credited reward equals
`floor(baseReward * m)` where `m` is the membership multiplier table
(Based tier → 1, Super Based tier → 1.5, Legendary tier → 2) applied to the
account's `membershipLevel`, and both `enbBalance` and `totalEarned` grow by
exactly that final reward. -/
theorem claim_C3 (s : Store) (now : Int) (w tx : String) (acct : Account)
    (hw : strPresent w = true) (ht : strPresent tx = true)
    (hf : findAccount s w = some acct) (ha : acct.isActivated = true)
    (hn : claimedToday acct.lastDailyClaimTime now = false) :
    membershipMultiplier "Based" = 1 ∧
    membershipMultiplier "Super Based" = (3 : Rat) / 2 ∧
    membershipMultiplier "Legendary" = 2 ∧
    finalRewardOf (claimStreak acct.lastDailyClaimTime acct.consecutiveDays now).2
        acct.membershipLevel =
      Int.floor (((claimStreak acct.lastDailyClaimTime acct.consecutiveDays now).2 : Rat) *
        membershipMultiplier acct.membershipLevel) ∧
    (dailyClaim s now w tx).1 =
      DailyClaimResult.ok
        (finalRewardOf (claimStreak acct.lastDailyClaimTime acct.consecutiveDays now).2
          acct.membershipLevel)
        (claimStreak acct.lastDailyClaimTime acct.consecutiveDays now).1
        (acct.enbBalance +
          ((finalRewardOf (claimStreak acct.lastDailyClaimTime acct.consecutiveDays now).2
            acct.membershipLevel : Int) : Rat)) ∧
    (∃ acct2, findAccount (dailyClaim s now w tx).2 w = some acct2 ∧
      acct2.enbBalance = acct.enbBalance +
        ((finalRewardOf (claimStreak acct.lastDailyClaimTime acct.consecutiveDays now).2
          acct.membershipLevel : Int) : Rat) ∧
      acct2.totalEarned = acct.totalEarned +
        ((finalRewardOf (claimStreak acct.lastDailyClaimTime acct.consecutiveDays now).2
          acct.membershipLevel : Int) : Rat)) := by
  refine ⟨rfl, rfl, rfl, rfl, ?_, ?_⟩
  · rw [dailyClaim_success s now w tx acct hw ht hf ha hn]
  · exact ⟨dailyClaimWrite acct now tx acct,
      dailyClaim_post_account s now w tx acct hw ht hf ha hn, rfl, rfl⟩

theorem claim_C3_witness :
    membershipMultiplier "Based" = 1 ∧
    membershipMultiplier "Super Based" = (3 : Rat) / 2 ∧
    membershipMultiplier "Legendary" = 2 ∧
    finalRewardOf (claimStreak acctD.lastDailyClaimTime acctD.consecutiveDays 12345).2
        acctD.membershipLevel =
      Int.floor (((claimStreak acctD.lastDailyClaimTime acctD.consecutiveDays 12345).2 : Rat) *
        membershipMultiplier acctD.membershipLevel) ∧
    (dailyClaim csD 12345 "0xA" "tx").1 =
      DailyClaimResult.ok
        (finalRewardOf (claimStreak acctD.lastDailyClaimTime acctD.consecutiveDays 12345).2
          acctD.membershipLevel)
        (claimStreak acctD.lastDailyClaimTime acctD.consecutiveDays 12345).1
        (acctD.enbBalance +
          ((finalRewardOf (claimStreak acctD.lastDailyClaimTime acctD.consecutiveDays 12345).2
            acctD.membershipLevel : Int) : Rat)) ∧
    (∃ acct2, findAccount (dailyClaim csD 12345 "0xA" "tx").2 "0xA" = some acct2 ∧
      acct2.enbBalance = acctD.enbBalance +
        ((finalRewardOf (claimStreak acctD.lastDailyClaimTime acctD.consecutiveDays 12345).2
          acctD.membershipLevel : Int) : Rat) ∧
      acct2.totalEarned = acctD.totalEarned +
        ((finalRewardOf (claimStreak acctD.lastDailyClaimTime acctD.consecutiveDays 12345).2
          acctD.membershipLevel : Int) : Rat)) :=
  claim_C3 csD 12345 "0xA" "tx" acctD (by decide) (by decide) (by decide) (by decide)
    (by decide)

/-- Claim C4: an activate-account request fails with 404 "Account not found"
when the wallet has no account, with 400 "Account is already activated" when
the account is activated, with 400 "Invitation code usage limit exceeded" when
the inviter's use count has reached its (defaulted, 5) maximum, and with 400
"You have already used this invitation code" when a usage record already pairs
the code with the wallet; in every failure case the returned store is the
input store, so nothing is modified. -/
theorem claim_C4 (s : Store) (now : Int) (w c : String)
    (hw : strPresent w = true) (hc : strPresent c = true) :
    (findAccount s w = none →
      activateAccount s now w c = (ActivateResult.err 404 "Account not found", s)) ∧
    (∀ acct, findAccount s w = some acct → acct.isActivated = true →
      activateAccount s now w c =
        (ActivateResult.err 400 "Account is already activated", s)) ∧
    (∀ acct inviter, findAccount s w = some acct → acct.isActivated = false →
      findByCode s c = some inviter → inviter.isActivated = true →
      natOr inviter.maxInvitationUses 5 ≤ inviter.currentInvitationUses →
      activateAccount s now w c =
        (ActivateResult.err 400 "Invitation code usage limit exceeded", s)) ∧
    (∀ acct inviter u, findAccount s w = some acct → acct.isActivated = false →
      findByCode s c = some inviter → inviter.isActivated = true →
      inviter.currentInvitationUses < natOr inviter.maxInvitationUses 5 →
      findUsage s c w = some u →
      activateAccount s now w c =
        (ActivateResult.err 400 "You have already used this invitation code", s)) := by
  refine ⟨fun hf => activate_not_found s now w c hw hc hf,
    fun acct hf ha => activate_already s now w c acct hw hc hf ha,
    fun acct inviter hf ha hbc hia hle =>
      activate_limit s now w c acct inviter hw hc hf ha hbc hia hle,
    fun acct inviter u hf ha hbc hia hlt hu =>
      activate_duplicate s now w c acct inviter u hw hc hf ha hbc hia hlt hu⟩

theorem claim_C4_witness :
    activateAccount csE 7 "0xA" "CODE1" = (ActivateResult.err 404 "Account not found", csE) ∧
    activateAccount csA 7 "0xA" "CODE9" =
      (ActivateResult.err 400 "Account is already activated", csA) ∧
    activateAccount csL 7 "0xN" "CODEL" =
      (ActivateResult.err 400 "Invitation code usage limit exceeded", csL) ∧
    activateAccount csU 7 "0xN" "CODE5" =
      (ActivateResult.err 400 "You have already used this invitation code", csU) := by
  refine ⟨(claim_C4 csE 7 "0xA" "CODE1" (by decide) (by decide)).1 (by decide),
    (claim_C4 csA 7 "0xA" "CODE9" (by decide) (by decide)).2.1 acctA (by decide) (by decide),
    (claim_C4 csL 7 "0xN" "CODEL" (by decide) (by decide)).2.2.1 newN inviterL
      (by decide) (by decide) (by decide) (by decide) (by decide),
    (claim_C4 csU 7 "0xN" "CODE5" (by decide) (by decide)).2.2.2 newN inviterS usageS
      (by decide) (by decide) (by decide) (by decide) (by decide) (by decide)⟩

/-- Claim C5: a successful activate-account request marks the activating
account activated (stamping `activatedAt` and `inviterWallet`), increments the
inviter's `currentInvitationUses` by exactly 1, and appends one usage record
pairing the code with the wallet — all applied together in the one returned
store (and by C4 a failing request applies none of them) — while the 200
response carries the membership level, the inviter wallet, and
`remainingUses = maxInvitationUses - (currentInvitationUses + 1)`. -/
theorem claim_C5 (s : Store) (now : Int) (w c : String) (acct inviter : Account)
    (hk : KeysNodup s)
    (hw : strPresent w = true) (hc : strPresent c = true)
    (hf : findAccount s w = some acct) (ha : acct.isActivated = false)
    (hbc : findByCode s c = some inviter) (hia : inviter.isActivated = true)
    (hlt : inviter.currentInvitationUses < natOr inviter.maxInvitationUses 5)
    (hu : findUsage s c w = none) :
    (activateAccount s now w c).1 =
      ActivateResult.ok (strOr acct.membershipLevel "Based") inviter.walletAddress
        ((natOr inviter.maxInvitationUses 5 : Int) - (inviter.currentInvitationUses + 1)) ∧
    (activateAccount s now w c).2.invitationUsage =
      s.invitationUsage ++ [{
        invitationCode := c
        usedBy := w
        usedAt := now
        inviterWallet := inviter.walletAddress }] ∧
    findAccount (activateAccount s now w c).2 w =
      some { acct with
        isActivated := true
        activatedAt := some now
        activatedBy := some c
        inviterWallet := some inviter.walletAddress } ∧
    findAccount (activateAccount s now w c).2 inviter.walletAddress =
      some { inviter with currentInvitationUses := inviter.currentInvitationUses + 1 } ∧
    (activateAccount s now w c).2.transactions = s.transactions := by
  have hmi : inviter ∈ s.accounts := List.mem_of_find?_eq_some hbc
  have hne : w ≠ inviter.walletAddress := by
    intro he
    have h1 := findAccount_of_mem hk hmi
    rw [← he, hf] at h1
    have heq : acct = inviter := Option.some.inj h1
    rw [heq, hia] at ha
    cases ha
  have hact := activate_success_eq s now w c acct inviter hw hc hf ha hbc hia hlt hu
  rw [hact]
  refine ⟨rfl, rfl, ?_, ?_, rfl⟩
  · show findAccount (activateCommit s now w c inviter) w = _
    unfold activateCommit
    rw [findAccount_usage_append, findAccount_update_ne _ (Ne.symm hne)
        (inviterWrite (inviter.currentInvitationUses + 1)) (fun a => rfl),
      findAccount_update_self s w (activateWrite now c inviter.walletAddress)
        (fun a => rfl), hf, Option.map_some']
    rfl
  · show findAccount (activateCommit s now w c inviter) inviter.walletAddress = _
    unfold activateCommit
    rw [findAccount_usage_append, findAccount_update_self _ inviter.walletAddress
        (inviterWrite (inviter.currentInvitationUses + 1)) (fun a => rfl),
      findAccount_update_ne s hne (activateWrite now c inviter.walletAddress)
        (fun a => rfl),
      findAccount_of_mem hk hmi, Option.map_some']
    rfl

theorem claim_C5_witness :
    (activateAccount csS 100 "0xN" "CODE5").1 =
      ActivateResult.ok (strOr newN.membershipLevel "Based") inviterS.walletAddress
        ((natOr inviterS.maxInvitationUses 5 : Int) -
          (inviterS.currentInvitationUses + 1)) ∧
    (activateAccount csS 100 "0xN" "CODE5").2.invitationUsage =
      csS.invitationUsage ++ [{
        invitationCode := "CODE5"
        usedBy := "0xN"
        usedAt := 100
        inviterWallet := inviterS.walletAddress }] ∧
    findAccount (activateAccount csS 100 "0xN" "CODE5").2 "0xN" =
      some { newN with
        isActivated := true
        activatedAt := some 100
        activatedBy := some "CODE5"
        inviterWallet := some inviterS.walletAddress } ∧
    findAccount (activateAccount csS 100 "0xN" "CODE5").2 inviterS.walletAddress =
      some { inviterS with currentInvitationUses := inviterS.currentInvitationUses + 1 } ∧
    (activateAccount csS 100 "0xN" "CODE5").2.transactions = csS.transactions :=
  claim_C5 csS 100 "0xN" "CODE5" newN inviterS (by decide) (by decide) (by decide)
    (by decide) (by decide) (by decide) (by decide) (by decide) (by decide)

/-- Claim C6: starting from any store with unique account ids in which every
account satisfies `currentInvitationUses ≤ maxInvitationUses` (with the
code's `|| 5` default), the invariant still holds for every account after any
sequence of sequentially executed activate-account attempts; moreover a single
attempt leaves every account's use count unchanged or — only while it is
still strictly below its maximum — increments it by exactly 1. -/
theorem claim_C6 (s : Store) (rs : List (Int × String × String))
    (hk : KeysNodup s) (hinv : ∀ a ∈ s.accounts, usesOK a) :
    (∀ a ∈ (runActivations s rs).accounts, usesOK a) ∧
    (∀ (now : Int) (w c : String), ∀ b ∈ (activateAccount s now w c).2.accounts,
      ∃ a ∈ s.accounts, a.walletAddress = b.walletAddress ∧
        (b.currentInvitationUses = a.currentInvitationUses ∨
          (a.currentInvitationUses < natOr a.maxInvitationUses 5 ∧
            b.currentInvitationUses = a.currentInvitationUses + 1))) :=
  ⟨(runActivations_inv rs s hk hinv).2,
    fun now w c => activate_uses_dichotomy s now w c hk⟩

theorem claim_C6_witness :
    usesOK { inviterS with currentInvitationUses := 1 } ∧
    (∃ a ∈ csS.accounts, a.walletAddress =
        ({ inviterS with currentInvitationUses := 1 } : Account).walletAddress ∧
      (({ inviterS with currentInvitationUses := 1 } : Account).currentInvitationUses =
          a.currentInvitationUses ∨
        (a.currentInvitationUses < natOr a.maxInvitationUses 5 ∧
          ({ inviterS with currentInvitationUses := 1 } : Account).currentInvitationUses =
            a.currentInvitationUses + 1))) := by
  have h := claim_C6 csS [(100, "0xN", "CODE5"), (200, "0xN", "CODE5")]
    (by decide) (by decide)
  exact ⟨h.1 _ (by decide), h.2 100 "0xN" "CODE5" _ (by decide)⟩

/-- Concrete fixture: two activated accounts with equal balances (for the tie
counterexample). -/
def acctT1 : Account := { baseAccount with isActivated := true, enbBalance := 5 }

def acctT2 : Account :=
  { baseAccount with
    walletAddress := "0xB"
    invitationCode := some "CODE2"
    isActivated := true
    enbBalance := 5 }

def cs7 : Store := { accounts := [acctT1, acctT2], invitationUsage := [], transactions := [] }

/-- Concrete fixture: two activated accounts with distinct statistics. -/
def acct7a : Account :=
  { baseAccount with
    isActivated := true
    enbBalance := 3
    totalEarned := 1
    consecutiveDays := 2 }

def acct7b : Account :=
  { baseAccount with
    walletAddress := "0xB"
    invitationCode := some "CODE2"
    isActivated := true
    enbBalance := 7
    totalEarned := 4
    consecutiveDays := 1 }

def cs7w : Store :=
  { accounts := [acct7a, acct7b], invitationUsage := [], transactions := [] }

/-- Claim C7 (amended): leaderboard queries return only activated accounts,
ordered in non-increasing (weakly descending) order of the chosen numeric
field, truncated to the caller limit, and the first returned row holds a value
at least as large as every activated account's value; but the `rank` field of
every returned row is `NaN`, because `QuerySnapshot.forEach` supplies no index
to its callback and the handlers compute `rank: index + 1 = undefined + 1`.
The user-rankings query reports for each field a rank equal to the number of
activated accounts with a strictly greater value plus one.  (The original
claim said "strictly descending" and "rank 1 assigned to the highest value";
ties make the order only weakly descending and no numeric rank is ever
assigned, see the counterexample.) -/
theorem claim_C7 :
    (∀ (key : Account → Rat) (s : Store) (limit : Nat),
      (∀ e ∈ leaderboardBy key s limit, ∃ a ∈ s.accounts, a.isActivated = true ∧
        e.walletAddress = a.walletAddress ∧ e.value = key a) ∧
      (leaderboardBy key s limit).Pairwise (fun x y => y.value ≤ x.value) ∧
      (leaderboardBy key s limit).length ≤ limit ∧
      (∀ e ∈ leaderboardBy key s limit, e.rank = JsNum.nan) ∧
      (0 < limit → ∀ a ∈ s.accounts, a.isActivated = true →
        ∃ e, (leaderboardBy key s limit).head? = some e ∧ key a ≤ e.value)) ∧
    (∀ (s : Store) (w : String) (acct : Account),
      findAccount s w = some acct → acct.isActivated = true →
      userRankings s w = Except.ok
        { balanceRank := (s.accounts.filter (fun a => a.isActivated &&
            decide (acct.enbBalance < a.enbBalance))).length + 1
          earningsRank := (s.accounts.filter (fun a => a.isActivated &&
            decide (acct.totalEarned < a.totalEarned))).length + 1
          streakRank := (s.accounts.filter (fun a => a.isActivated &&
            decide (acct.consecutiveDays < a.consecutiveDays))).length + 1 }) :=
  ⟨fun key s limit => ⟨leaderboard_mem key s limit, leaderboard_pairwise key s limit,
    leaderboard_length key s limit, leaderboard_rank_nan key s limit,
    fun hpos => leaderboard_head key s limit hpos⟩,
    fun s w acct hf ha => userRankings_ok s w acct hf ha⟩

/-- Claim C7 counterexample: with two activated accounts holding the same
balance the balance leaderboard lists the tied value twice, so its order is
not strictly descending; and on any populated leaderboard every row's rank is
`NaN` (`undefined + 1` from the index-less `forEach` callback), so rank 1 is
never assigned to the highest value. -/
theorem claim_C7_cex :
    (((leaderboardBalance cs7 50).map (fun e => e.value)) = [5, 5] ∧
      ¬ List.Pairwise (fun x y : LeaderEntry => y.value < x.value)
        (leaderboardBalance cs7 50)) ∧
    (((leaderboardBalance cs7w 50).map (fun e => e.rank)) = [JsNum.nan, JsNum.nan] ∧
      JsNum.nan ≠ JsNum.num 1) := by
  refine ⟨⟨by decide, by decide⟩, by decide, by decide⟩

theorem claim_C7_witness :
    List.Pairwise (fun x y : LeaderEntry => y.value ≤ x.value)
      (leaderboardBy (fun a => a.enbBalance) cs7w 50) ∧
    ({ rank := JsNum.nan, walletAddress := "0xB", value := 7,
        membershipLevel := "Based" } : LeaderEntry).rank = JsNum.nan ∧
    (∃ e, (leaderboardBy (fun a => a.enbBalance) cs7w 50).head? = some e ∧
      acct7a.enbBalance ≤ e.value) ∧
    (∃ a ∈ cs7w.accounts, a.isActivated = true ∧
      ({ rank := JsNum.nan, walletAddress := "0xB", value := 7,
          membershipLevel := "Based" } : LeaderEntry).walletAddress = a.walletAddress ∧
      ({ rank := JsNum.nan, walletAddress := "0xB", value := 7,
          membershipLevel := "Based" } : LeaderEntry).value = a.enbBalance) ∧
    userRankings cs7w "0xA" = Except.ok
      { balanceRank := (cs7w.accounts.filter (fun a => a.isActivated &&
          decide (acct7a.enbBalance < a.enbBalance))).length + 1
        earningsRank := (cs7w.accounts.filter (fun a => a.isActivated &&
          decide (acct7a.totalEarned < a.totalEarned))).length + 1
        streakRank := (cs7w.accounts.filter (fun a => a.isActivated &&
          decide (acct7a.consecutiveDays < a.consecutiveDays))).length + 1 } := by
  refine ⟨(claim_C7.1 (fun a => a.enbBalance) cs7w 50).2.1,
    (claim_C7.1 (fun a => a.enbBalance) cs7w 50).2.2.2.1
      { rank := JsNum.nan, walletAddress := "0xB", value := 7,
        membershipLevel := "Based" } (by decide),
    (claim_C7.1 (fun a => a.enbBalance) cs7w 50).2.2.2.2 (by decide) acct7a
      (by decide) (by decide),
    (claim_C7.1 (fun a => a.enbBalance) cs7w 50).1
      { rank := JsNum.nan, walletAddress := "0xB", value := 7,
        membershipLevel := "Based" } (by decide),
    claim_C7.2 cs7w "0xA" acct7a (by decide) (by decide)⟩

/-- Claim C8: a debit in excess of the current balance is rejected with 400
"Insufficient balance" and the store is returned unchanged; an accepted
request yields `newBalance = balance + amount` for a credit and
`balance - amount` for a debit, and appends — in the same batched commit — a
transaction record whose `balanceBefore`/`balanceAfter` are the old and new
balances. -/
theorem claim_C8 (s : Store) (now : Int) (w : String) (q : Rat) (desc : String)
    (acct : Account) (hw : strPresent w = true)
    (hf : findAccount s w = some acct) :
    (acct.enbBalance < q →
      updateBalance s now w (some q) "debit" desc =
        (UpdateBalanceResult.err 400 "Insufficient balance", s)) ∧
    (updateBalance s now w (some q) "credit" desc =
      (UpdateBalanceResult.ok acct.enbBalance (acct.enbBalance + q),
        balanceCommit s now w q "credit" (strOr desc "") acct.enbBalance
          (acct.enbBalance + q)) ∧
      (updateBalance s now w (some q) "credit" desc).2.transactions =
        s.transactions ++ [{
          walletAddress := w
          amount := q
          type := "credit"
          description := strOr desc ""
          balanceBefore := acct.enbBalance
          balanceAfter := acct.enbBalance + q
          timestamp := now }] ∧
      findAccount (updateBalance s now w (some q) "credit" desc).2 w =
        some { acct with enbBalance := acct.enbBalance + q }) ∧
    (¬ acct.enbBalance < q →
      updateBalance s now w (some q) "debit" desc =
        (UpdateBalanceResult.ok acct.enbBalance (acct.enbBalance - q),
          balanceCommit s now w q "debit" (strOr desc "") acct.enbBalance
            (acct.enbBalance - q)) ∧
      (updateBalance s now w (some q) "debit" desc).2.transactions =
        s.transactions ++ [{
          walletAddress := w
          amount := q
          type := "debit"
          description := strOr desc ""
          balanceBefore := acct.enbBalance
          balanceAfter := acct.enbBalance - q
          timestamp := now }] ∧
      findAccount (updateBalance s now w (some q) "debit" desc).2 w =
        some { acct with enbBalance := acct.enbBalance - q }) := by
  refine ⟨?_, ?_, ?_⟩
  · intro hq
    unfold updateBalance
    have hd : strPresent "debit" = true := rfl
    simp [hw, hf, hq, hd]
  · have hmain : updateBalance s now w (some q) "credit" desc =
        (UpdateBalanceResult.ok acct.enbBalance (acct.enbBalance + q),
          balanceCommit s now w q "credit" (strOr desc "") acct.enbBalance
            (acct.enbBalance + q)) := by
      unfold updateBalance
      have hc2 : strPresent "credit" = true := rfl
      simp [hw, hf, hc2]
    refine ⟨hmain, ?_, ?_⟩
    · rw [hmain]
      rfl
    · rw [hmain]
      show findAccount (balanceCommit s now w q "credit" (strOr desc "")
        acct.enbBalance (acct.enbBalance + q)) w = _
      unfold balanceCommit
      rw [findAccount_tx_append, findAccount_update_self s w
          (fun a => { a with enbBalance := acct.enbBalance + q }) (fun a => rfl),
        hf, Option.map_some']
  · intro hq
    have hmain : updateBalance s now w (some q) "debit" desc =
        (UpdateBalanceResult.ok acct.enbBalance (acct.enbBalance - q),
          balanceCommit s now w q "debit" (strOr desc "") acct.enbBalance
            (acct.enbBalance - q)) := by
      unfold updateBalance
      have hd : strPresent "debit" = true := rfl
      simp [hw, hf, hq, hd]
    refine ⟨hmain, ?_, ?_⟩
    · rw [hmain]
      rfl
    · rw [hmain]
      show findAccount (balanceCommit s now w q "debit" (strOr desc "")
        acct.enbBalance (acct.enbBalance - q)) w = _
      unfold balanceCommit
      rw [findAccount_tx_append, findAccount_update_self s w
          (fun a => { a with enbBalance := acct.enbBalance - q }) (fun a => rfl),
        hf, Option.map_some']

/-- Concrete fixture: an activated account holding a balance of 5. -/
def acct8 : Account := { baseAccount with isActivated := true, enbBalance := 5 }

def cs8 : Store := { accounts := [acct8], invitationUsage := [], transactions := [] }

theorem claim_C8_witness :
    updateBalance cs8 99 "0xA" (some 10) "debit" "d1" =
      (UpdateBalanceResult.err 400 "Insufficient balance", cs8) ∧
    updateBalance cs8 99 "0xA" (some 7) "credit" "d2" =
      (UpdateBalanceResult.ok acct8.enbBalance (acct8.enbBalance + 7),
        balanceCommit cs8 99 "0xA" 7 "credit" (strOr "d2" "") acct8.enbBalance
          (acct8.enbBalance + 7)) ∧
    updateBalance cs8 99 "0xA" (some 3) "debit" "d3" =
      (UpdateBalanceResult.ok acct8.enbBalance (acct8.enbBalance - 3),
        balanceCommit cs8 99 "0xA" 3 "debit" (strOr "d3" "") acct8.enbBalance
          (acct8.enbBalance - 3)) := by
  refine ⟨(claim_C8 cs8 99 "0xA" 10 "d1" acct8 (by decide) (by decide)).1 (by decide),
    ((claim_C8 cs8 99 "0xA" 7 "d2" acct8 (by decide) (by decide)).2.1).1,
    ((claim_C8 cs8 99 "0xA" 3 "d3" acct8 (by decide) (by decide)).2.2 (by decide)).1⟩

/-- Claim C9 (amended): for any `membershipLevel` string other than exactly
"Based", "Super Based" and "Legendary" that is also not a member name
inherited from `Object.prototype` — including the spelling "SuperBased"
without a space — the lookup `membershipMultiplier[level] || 1` falls through
to the default 1 and the final reward equals the base reward; but for an
inherited member name such as "toString" the lookup yields the truthy
inherited member, `|| 1` keeps it, and the reward is `NaN` rather than the
base reward, so the reward computation is not total over arbitrary strings. -/
theorem claim_C9 (level : String) (base : Nat)
    (h1 : level ≠ "Based") (h2 : level ≠ "Super Based") (h3 : level ≠ "Legendary") :
    (level ∉ objectPrototypeMembers →
      multiplierLookup level = JsLookup.num 1 ∧
      finalRewardJs base level = JsNum.num base ∧
      finalRewardJs base level = JsNum.num (finalRewardOf base level)) ∧
    (level ∈ objectPrototypeMembers →
      multiplierLookup level = JsLookup.inherited ∧
      finalRewardJs base level = JsNum.nan) := by
  constructor
  · intro hp
    have hm : multiplierLookup level = JsLookup.num 1 := by
      unfold multiplierLookup
      simp [h1, h2, h3, hp]
    have hb2 : finalRewardJs base level = JsNum.num (finalRewardOf base level) :=
      finalRewardJs_num base level hp
    have hmm : membershipMultiplier level = 1 := by
      unfold membershipMultiplier
      simp [h1, h2, h3]
    have hfr : finalRewardOf base level = base := by
      unfold finalRewardOf
      rw [hmm, mul_one, Int.floor_natCast]
    have hbase : finalRewardJs base level = JsNum.num base := by
      rw [hb2, hfr]
      norm_cast
    exact ⟨hm, hbase, hb2⟩
  · intro hp
    have hm : multiplierLookup level = JsLookup.inherited := by
      unfold multiplierLookup
      simp [h1, h2, h3, hp]
    refine ⟨hm, ?_⟩
    unfold finalRewardJs
    rw [hm]

/-- Claim C9 counterexample: "toString" is none of the three table keys, yet
the lookup does not fall through to 1 — the object literal inherits
`Object.prototype.toString`, which is truthy, so the reward is `NaN` and in
particular not equal to the base reward as the claim asserts for every
unrecognized level string. -/
theorem claim_C9_cex :
    ("toString" ≠ "Based" ∧ "toString" ≠ "Super Based" ∧
      "toString" ≠ "Legendary" ∧ "toString" ≠ "SuperBased") ∧
    multiplierLookup "toString" = JsLookup.inherited ∧
    finalRewardJs 10 "toString" = JsNum.nan ∧
    finalRewardJs 10 "toString" ≠ JsNum.num 10 := by
  refine ⟨⟨by decide, by decide, by decide, by decide⟩, by decide, by decide, by decide⟩

theorem claim_C9_witness :
    (multiplierLookup "SuperBased" = JsLookup.num 1 ∧
      finalRewardJs 30 "SuperBased" = JsNum.num 30 ∧
      finalRewardJs 30 "SuperBased" = JsNum.num (finalRewardOf 30 "SuperBased")) ∧
    (multiplierLookup "valueOf" = JsLookup.inherited ∧
      finalRewardJs 30 "valueOf" = JsNum.nan) := by
  exact ⟨(claim_C9 "SuperBased" 30 (by decide) (by decide) (by decide)).1 (by decide),
    (claim_C9 "valueOf" 30 (by decide) (by decide) (by decide)).2 (by decide)⟩

/-- Claim C10: for every existing account that has not claimed on the current
calendar day, the daily-claim-status query reports `canClaim = true` without
ever consulting `isActivated`, while an actual daily-claim request for a
non-activated account is rejected with 400 "Account is not activated". -/
theorem claim_C10 (s : Store) (now : Int) (w tx : String) (acct : Account)
    (hf : findAccount s w = some acct)
    (hn : claimedToday acct.lastDailyClaimTime now = false) :
    dailyClaimStatus s now w = Except.ok
      { canClaim := true
        lastClaimToday := false
        consecutiveDays := acct.consecutiveDays
        lastDailyClaimTime := acct.lastDailyClaimTime } ∧
    (acct.isActivated = false → strPresent w = true → strPresent tx = true →
      dailyClaim s now w tx = (DailyClaimResult.err 400 "Account is not activated", s)) := by
  constructor
  · unfold dailyClaimStatus
    simp [hf, hn]
  · intro ha hw ht
    exact dailyClaim_not_activated s now w tx acct hw ht hf ha

def cs10 : Store := { accounts := [baseAccount], invitationUsage := [], transactions := [] }

theorem claim_C10_witness :
    dailyClaimStatus cs10 50 "0xA" = Except.ok
      { canClaim := true
        lastClaimToday := false
        consecutiveDays := baseAccount.consecutiveDays
        lastDailyClaimTime := baseAccount.lastDailyClaimTime } ∧
    dailyClaim cs10 50 "0xA" "tx" =
      (DailyClaimResult.err 400 "Account is not activated", cs10) := by
  have h := claim_C10 cs10 50 "0xA" "tx" baseAccount (by decide) (by decide)
  exact ⟨h.1, h.2 (by decide) (by decide) (by decide)⟩

end ENB
